import Mathlib

/-!
Verification of the backup/restore pipeline of `backup_opencode.py`
(`collect` / `export`).

The filesystem is modelled shallowly: a directory's contents are a list of
(relative path, bytes) pairs (`Tree`); a directory that may be absent is an
`Option Tree`.  The three logical slots (primary-config, primary-cache,
secondary-cache) are the Python variables `config`, `cache`, `bun_cache`.

Pure layer: `stagingTree` models the staging copies (lines 87-110), the
archive contents equal the staged files because the zip walk (lines 138-144)
stores every file with its path relative to the staging root
(`collectArchive`).  `restoreSlots` models the three sequential restore
blocks of `export` (lines 193-227).

Effectful layer: `collectRun` / `exportRun` model the whole functions,
including the `try/finally` cleanup, the password subprocess branches and
their exception handling, with environment outcomes (subprocess results,
copy failures) supplied as oracle fields of a configuration record.
-/

namespace BackupOpencode

abbrev Bytes := List Nat

abbrev RelPath := List String

/-- A file tree: the files of one directory, as (relative path, content). -/
abbrev Tree := List (RelPath × Bytes)

/-- The three logical slots handled by `get_opencode_dirs` (lines 19-25). -/
inductive Slot
  | config
  | cache
  | bunCache
deriving DecidableEq, Repr

/-- Archive-internal folder name of a slot (lines 83-85 / 194, 206, 218). -/
def Slot.archiveName : Slot → String
  | .config => "config"
  | .cache => "cache"
  | .bunCache => "bun_cache"

/-- The fixed order in which the code treats the slots (copy blocks at
lines 92-110, restore blocks at lines 193-227). -/
def slotOrder : List Slot := [.config, .cache, .bunCache]

/-- The three slot directories of one machine state (sources at collect
time, destinations at export time); `none` means the directory is absent. -/
structure DirSet where
  config : Option Tree
  cache : Option Tree
  bunCache : Option Tree
deriving DecidableEq, Repr

def DirSet.get (d : DirSet) : Slot → Option Tree
  | .config => d.config
  | .cache => d.cache
  | .bunCache => d.bunCache

def DirSet.set (d : DirSet) : Slot → Option Tree → DirSet
  | .config, v => { d with config := v }
  | .cache, v => { d with cache := v }
  | .bunCache, v => { d with bunCache := v }

/-- Place a copied directory under folder `name` of the staging tree
(the effect of `shutil.copytree(src, backup_dir / name)`). -/
def tagTree (name : String) (t : Tree) : Tree :=
  t.map fun e => (name :: e.1, e.2)

/-- Staging of one slot: copied when the source exists, skipped (with a
warning) when absent (lines 92-110). -/
def stageSlot (name : String) : Option Tree → Tree
  | none => []
  | some t => tagTree name t

/-- The staging tree after the three copy blocks of `collect`
(lines 87-110). -/
def stagingTree (s : DirSet) : Tree :=
  stageSlot "config" s.config ++ stageSlot "cache" s.cache ++
    stageSlot "bun_cache" s.bunCache

/-- Contents of the archive written by the no-password path of `collect`
(lines 138-144): `os.walk` visits every file of the staging tree and the
entry name is the path relative to the staging root, so the archive holds
exactly the staged files. -/
def collectArchive (s : DirSet) : Tree :=
  stagingTree s

/-- Files of the extracted tree lying under top-level folder `name`, with
the folder name stripped: the tree that `shutil.copytree(temp_dir / name,
dest)` copies.  `temp_dir / name` exists iff this list is nonempty. -/
def filesUnder (name : String) (archive : Tree) : Tree :=
  archive.filterMap fun e =>
    match e.1 with
    | [] => none
    | h :: rest => if h = name then some (rest, e.2) else none

/-- State after the restore phase of `export`: which slots entered the
rmtree/copytree branch (in order), which were skipped with the warning,
the resulting destinations, and the slot whose restore raised, if any. -/
structure RestoreState where
  attempted : List Slot
  warnings : List Slot
  dests : DirSet
  failed : Option Slot
deriving Repr

/-- The sequential restore blocks of `export` (lines 193-227), one block
per slot in list order.  If the slot's folder is absent from the extracted
tree, only a warning is printed.  Otherwise the existing destination is
removed and the extracted folder copied over; `ok sl = false` means an
exception is raised inside this block (modelled at the copy, after the
removal), which aborts the remaining blocks because the code has no
per-slot exception handler. -/
def restoreSlots (ar : Tree) (ok : Slot → Bool) :
    List Slot → DirSet → RestoreState
  | [], d => ⟨[], [], d, none⟩
  | sl :: rest, d =>
    let extracted := filesUnder sl.archiveName ar
    if extracted = [] then
      let r := restoreSlots ar ok rest d
      { r with warnings := sl :: r.warnings }
    else if ok sl then
      let r := restoreSlots ar ok rest (d.set sl (some extracted))
      { r with attempted := sl :: r.attempted }
    else
      ⟨[sl], [], d.set sl none, some sl⟩

/-- Destinations after the restore phase of `export` when no filesystem
operation fails. -/
def exportRestore (ar : Tree) (d : DirSet) : DirSet :=
  (restoreSlots ar (fun _ => true) slotOrder d).dests

/-! Effectful layer: whole-function models of `collect` and `export` with
environment outcomes supplied as oracles.  Failure modes are modelled at
the granularity the code distinguishes (one oracle per operation the code
guards or that can raise inside the `try` body); the `finally` cleanup
itself (`shutil.rmtree` of the temporary tree, lines 151-155 / 231-235) is
modelled as succeeding. -/

/-- Exceptions that can escape a run.  `spawnNotFound` is Python's
`FileNotFoundError` from `subprocess.run` when the executable is absent;
it is not a `subprocess.CalledProcessError`, so the handlers at lines
130 and 182 do not catch it. -/
inductive ExnKind
  | mkdirFail
  | copyFail (sl : Slot)
  | spawnNotFound
  | zipWriteFail
  | extractFail
  | restoreFail (sl : Slot)
deriving DecidableEq, Repr

/-- Result of a whole run: normal return, `sys.exit(1)` (line 164), or an
uncaught exception propagating to the caller. -/
inductive Outcome
  | success
  | exit1
  | raised (e : ExnKind)
deriving DecidableEq, Repr

/-- Lifecycle events of the run's timestamp-named temporary directory. -/
inductive TempEvent
  | mkdirTemp
  | rmtreeTemp
deriving DecidableEq, Repr

/-- Whether the temporary directory exists after the recorded events. -/
def dirExistsAfter (trace : List TempEvent) : Bool :=
  trace.foldl (fun _ e => match e with | .mkdirTemp => true | .rmtreeTemp => false)
    false

/-- Outcome of running an external tool via `subprocess.run(..., check=True)`:
normal exit, nonzero exit (raises `CalledProcessError`), or executable not
found (raises `FileNotFoundError`). -/
inductive ToolOutcome
  | ok
  | exitError
  | notFound
deriving DecidableEq, Repr

/-- Inputs and environment oracles of one `collect` call (lines 73-155). -/
structure CollectCfg where
  sources : DirSet
  output : Option String
  password : Bool
  mkdirOk : Bool
  copyOk : Slot → Bool
  zipTool : ToolOutcome
  zipfileWriteOk : Bool

/-- Default archive name built from the staging timestamp (line 114). -/
def defaultZipName : String := "opencode_backup_TIMESTAMP.zip"

/-- Observable result of one `collect` call. -/
structure CollectResult where
  outcome : Outcome
  trace : List TempEvent
  missingWarnings : List Slot
  encrypted : Bool
  fallbackWarned : Bool
  returned : Option String
  archive : Option Tree
deriving Repr

/-- The three sequential copy blocks of `collect` (lines 92-110): absent
sources are skipped with a warning; a raising `shutil.copytree` aborts the
remaining blocks.  Returns the warnings emitted and the failing slot. -/
def copyPhase (s : DirSet) (ok : Slot → Bool) :
    List Slot → List Slot × Option Slot
  | [] => ([], none)
  | sl :: rest =>
    match s.get sl with
    | some _ =>
      if ok sl then copyPhase s ok rest else ([], some sl)
    | none =>
      let r := copyPhase s ok rest
      (sl :: r.1, r.2)

/-- Shared tail of `collect`: the unencrypted `zipfile` write (lines
135-144), reached directly when no password is given or after the fallback
when the `zip` subprocess raised `CalledProcessError` (lines 130-133). -/
def plainZipTail (cfg : CollectCfg) (warns : List Slot) (zipName : String)
    (fellBack : Bool) : CollectResult :=
  if cfg.zipfileWriteOk then
    { outcome := .success, trace := [.mkdirTemp, .rmtreeTemp],
      missingWarnings := warns, encrypted := false, fallbackWarned := fellBack,
      returned := some zipName, archive := some (stagingTree cfg.sources) }
  else
    { outcome := .raised .zipWriteFail, trace := [.mkdirTemp, .rmtreeTemp],
      missingWarnings := warns, encrypted := false, fallbackWarned := fellBack,
      returned := none, archive := none }

/-- Whole-function model of `collect` (lines 73-155).  The release
download at line 76 catches every exception internally and only touches an
unrelated file, so it is not modelled. -/
def collectRun (cfg : CollectCfg) : CollectResult :=
  if cfg.mkdirOk then
    match (copyPhase cfg.sources cfg.copyOk slotOrder).2 with
    | some sl =>
      { outcome := .raised (.copyFail sl), trace := [.mkdirTemp, .rmtreeTemp],
        missingWarnings := (copyPhase cfg.sources cfg.copyOk slotOrder).1,
        encrypted := false, fallbackWarned := false, returned := none,
        archive := none }
    | none =>
      let warns := (copyPhase cfg.sources cfg.copyOk slotOrder).1
      let zipName := cfg.output.getD defaultZipName
      if cfg.password then
        match cfg.zipTool with
        | .ok =>
          { outcome := .success, trace := [.mkdirTemp, .rmtreeTemp],
            missingWarnings := warns, encrypted := true,
            fallbackWarned := false, returned := some zipName,
            archive := some (stagingTree cfg.sources) }
        | .exitError => plainZipTail cfg warns zipName true
        | .notFound =>
          { outcome := .raised .spawnNotFound, trace := [.mkdirTemp, .rmtreeTemp],
            missingWarnings := warns, encrypted := false,
            fallbackWarned := false, returned := none, archive := none }
      else plainZipTail cfg warns zipName false
  else
    { outcome := .raised .mkdirFail, trace := [], missingWarnings := [],
      encrypted := false, fallbackWarned := false, returned := none,
      archive := none }

/-- Inputs and environment oracles of one `export` call (lines 158-235).
`archive = none` models a `zip_file` path that does not exist. -/
structure ExportCfg where
  archive : Option Tree
  password : Bool
  mkdirOk : Bool
  unzipTool : ToolOutcome
  zipfileExtractOk : Bool
  restoreOk : Slot → Bool

/-- Observable result of one `export` call. -/
structure ExportResult where
  outcome : Outcome
  trace : List TempEvent
  unzipTried : Bool
  zipfileTried : Bool
  attempted : List Slot
  slotWarnings : List Slot
  dests : DirSet
deriving Repr

/-- Restore phase plus the final cleanup, shared by every branch in which
extraction succeeded. -/
def restoreTail (ar : Tree) (ok : Slot → Bool) (d : DirSet)
    (unzipTried zipfileTried : Bool) : ExportResult :=
  let r := restoreSlots ar ok slotOrder d
  { outcome := match r.failed with
      | some sl => .raised (.restoreFail sl)
      | none => .success,
    trace := [.mkdirTemp, .rmtreeTemp], unzipTried := unzipTried,
    zipfileTried := zipfileTried, attempted := r.attempted,
    slotWarnings := r.warnings, dests := r.dests }

/-- Whole-function model of `export` (lines 158-235). -/
def exportRun (cfg : ExportCfg) (d : DirSet) : ExportResult :=
  match cfg.archive with
  | none =>
    { outcome := .exit1, trace := [], unzipTried := false,
      zipfileTried := false, attempted := [], slotWarnings := [], dests := d }
  | some ar =>
    if cfg.mkdirOk then
      if cfg.password then
        match cfg.unzipTool with
        | .ok => restoreTail ar cfg.restoreOk d true false
        | .exitError =>
          if cfg.zipfileExtractOk then restoreTail ar cfg.restoreOk d true true
          else
            { outcome := .raised .extractFail, trace := [.mkdirTemp, .rmtreeTemp],
              unzipTried := true, zipfileTried := true, attempted := [],
              slotWarnings := [], dests := d }
        | .notFound =>
          { outcome := .raised .spawnNotFound, trace := [.mkdirTemp, .rmtreeTemp],
            unzipTried := true, zipfileTried := false, attempted := [],
            slotWarnings := [], dests := d }
      else
        if cfg.zipfileExtractOk then restoreTail ar cfg.restoreOk d false true
        else
          { outcome := .raised .extractFail, trace := [.mkdirTemp, .rmtreeTemp],
            unzipTried := false, zipfileTried := true, attempted := [],
            slotWarnings := [], dests := d }
    else
      { outcome := .raised .mkdirFail, trace := [], unzipTried := false,
        zipfileTried := false, attempted := [], slotWarnings := [], dests := d }

/-! Path-resolution model for the password write path of `collect`.  The
`zip` subprocess runs with `cwd=backup_dir` and target `f"../{zip_filename}"`
(lines 121-128), while `collect` returns `zip_filename` itself (line 149),
which the caller resolves against the working directory.  Paths are POSIX
strings modelled as character lists; resolution normalises `.` and `..`
segments. -/

/-- One path segment (between slashes). -/
abbrev Seg := List Char

/-- Split a character list at every slash. -/
def splitSlash : List Char → List Seg
  | [] => [[]]
  | c :: cs =>
    if c = '/' then [] :: splitSlash cs
    else
      match splitSlash cs with
      | [] => [[c]]
      | s :: rest => (c :: s) :: rest

/-- Nonempty, non-`.` segments of a path string. -/
def pathSegs (p : List Char) : List Seg :=
  (splitSlash p).filter fun s => decide (s ≠ [] ∧ s ≠ ['.'])

/-- A POSIX path is absolute when it starts with a slash. -/
def isAbsPath (p : List Char) : Bool :=
  decide (p.head? = some '/')

/-- Resolve one segment against an absolute base: `..` drops the last
component (the parent of the root is the root), anything else appends. -/
def normStep (acc : List Seg) (seg : Seg) : List Seg :=
  if seg = ['.', '.'] then acc.dropLast else acc ++ [seg]

/-- Resolve a path string against an absolute base directory. -/
def resolvePath (base : List Seg) (p : List Char) : List Seg :=
  if isAbsPath p then (pathSegs p).foldl normStep []
  else (pathSegs p).foldl normStep base

/-- Absolute location the encrypted-archive subprocess writes to: target
`"../" ++ output` resolved from the staging directory `cwd/stagingName`
(line 124 with line 125's `cwd=backup_dir`; `backup_dir` is the relative
name of line 82, i.e. one level below the working directory). -/
def zipWritePath (cwd : List Seg) (stagingName : Seg) (output : List Char) :
    List Seg :=
  resolvePath (cwd ++ [stagingName]) ('.' :: '.' :: '/' :: output)

/-- Absolute location named by `collect`'s return value (line 149),
resolved against the working directory. -/
def returnedWritePath (cwd : List Seg) (output : List Char) : List Seg :=
  resolvePath cwd output

/-! Basic lemmas about the pure layer. -/

theorem filesUnder_append (name : String) (a b : Tree) :
    filesUnder name (a ++ b) = filesUnder name a ++ filesUnder name b :=
  List.filterMap_append a b _

theorem filesUnder_tagTree_self (name : String) (t : Tree) :
    filesUnder name (tagTree name t) = t := by
  induction t with
  | nil => rfl
  | cons e rest ih =>
    simp [tagTree, filesUnder] at ih ⊢
    try exact ih

theorem filesUnder_tagTree_ne (name m : String) (t : Tree) (h : m ≠ name) :
    filesUnder name (tagTree m t) = [] := by
  induction t with
  | nil => rfl
  | cons e rest ih =>
    simp [tagTree, filesUnder, h] at ih ⊢
    try exact ih

theorem filesUnder_stageSlot_self (name : String) (o : Option Tree) :
    filesUnder name (stageSlot name o) = o.getD [] := by
  cases o with
  | none => rfl
  | some t => exact filesUnder_tagTree_self name t

theorem filesUnder_stageSlot_ne (name m : String) (o : Option Tree)
    (h : m ≠ name) : filesUnder name (stageSlot m o) = [] := by
  cases o with
  | none => rfl
  | some t => exact filesUnder_tagTree_ne name m t h

/-- The archive built from sources `s` holds, under each slot's folder
name, exactly the files of that slot's source (empty when absent). -/
theorem filesUnder_collectArchive (s : DirSet) (sl : Slot) :
    filesUnder sl.archiveName (collectArchive s) = (s.get sl).getD [] := by
  cases sl <;>
    simp [collectArchive, stagingTree, filesUnder_append, Slot.archiveName,
      DirSet.get, filesUnder_stageSlot_self, filesUnder_stageSlot_ne]

theorem get_set_same (d : DirSet) (sl : Slot) (v : Option Tree) :
    (d.set sl v).get sl = v := by
  cases sl <;> rfl

theorem get_set_ne (d : DirSet) (sl sl2 : Slot) (v : Option Tree)
    (h : sl ≠ sl2) : (d.set sl v).get sl2 = d.get sl2 := by
  cases sl <;> cases sl2 <;> first | rfl | exact absurd rfl h

/-- Per-slot behaviour of the failure-free restore phase: a slot present in
the extracted tree is fully replaced by the extracted files, an absent slot
leaves its destination unchanged. -/
theorem exportRestore_get (ar : Tree) (d : DirSet) (sl : Slot) :
    (exportRestore ar d).get sl =
      if filesUnder sl.archiveName ar = [] then d.get sl
      else some (filesUnder sl.archiveName ar) := by
  cases sl <;>
    · simp only [exportRestore, slotOrder, restoreSlots]
      split_ifs <;>
        simp_all [DirSet.get, DirSet.set, Slot.archiveName]

/-- Membership in one staged slot forces the source to exist and the entry
path to start with the slot's folder name. -/
theorem mem_stageSlot (name : String) (o : Option Tree) (e : RelPath × Bytes)
    (he : e ∈ stageSlot name o) :
    ∃ t rest, o = some t ∧ e.1 = name :: rest := by
  cases o with
  | none => cases he
  | some t =>
    simp only [stageSlot, tagTree] at he
    obtain ⟨a, ha, rfl⟩ := List.mem_map.1 he
    exact ⟨t, a.1, rfl, rfl⟩

/-- Every archive entry lies under the folder name of a slot whose source
directory existed at collection time. -/
theorem collectArchive_mem (s : DirSet) (e : RelPath × Bytes)
    (he : e ∈ collectArchive s) :
    ∃ sl t rest, s.get sl = some t ∧ e.1 = sl.archiveName :: rest := by
  rw [collectArchive, stagingTree] at he
  rcases List.mem_append.1 he with h | h
  · rcases List.mem_append.1 h with h | h
    · obtain ⟨t, rest, ho, hp⟩ := mem_stageSlot _ _ _ h
      exact ⟨.config, t, rest, ho, hp⟩
    · obtain ⟨t, rest, ho, hp⟩ := mem_stageSlot _ _ _ h
      exact ⟨.cache, t, rest, ho, hp⟩
  · obtain ⟨t, rest, ho, hp⟩ := mem_stageSlot _ _ _ h
    exact ⟨.bunCache, t, rest, ho, hp⟩

/-- A slot is skipped with the warning during a failure-free restore
exactly when its folder is absent from the extracted tree. -/
theorem warnings_mem (ar : Tree) (d : DirSet) (sl : Slot) :
    sl ∈ (restoreSlots ar (fun _ => true) slotOrder d).warnings ↔
      filesUnder sl.archiveName ar = [] := by
  cases sl <;>
    · simp only [slotOrder, restoreSlots]
      split_ifs <;> simp_all [Slot.archiveName]

/-- Helper: a present, populated source slot is restored verbatim by the
collect/export round trip. -/
theorem restored_present_slots (s d : DirSet)
    (h1 : s.config ≠ some []) (h2 : s.cache ≠ some [])
    (h3 : s.bunCache ≠ some []) :
    ∀ sl t, s.get sl = some t →
      (exportRestore (collectArchive s) d).get sl = some t := by
  intro sl t h
  have hne : t ≠ [] := by
    rintro rfl
    cases sl
    · exact h1 h
    · exact h2 h
    · exact h3 h
  rw [exportRestore_get, filesUnder_collectArchive, h]
  simp only [Option.getD_some]
  exact if_neg hne

/-- C1: for every set of populated source directories (each slot either
absent or with a nonempty file tree), exporting the archive produced by a
password-less collect restores, for each slot present at collection time,
a destination tree identical in contents and relative paths to the source
tree, whatever the destinations held before. -/
theorem collect_export_roundtrip (s d : DirSet)
    (h1 : s.config ≠ some []) (h2 : s.cache ≠ some [])
    (h3 : s.bunCache ≠ some []) :
    ∀ sl t, s.get sl = some t →
      (exportRestore (collectArchive s) d).get sl = some t :=
  restored_present_slots s d h1 h2 h3

theorem collect_export_roundtrip_witness :
    (exportRestore
        (collectArchive
          ⟨some [(["a.json"], [1, 2])], some [(["x"], [3])],
            some [(["p", "y"], [4])]⟩)
        ⟨none, none, none⟩).get .config = some [(["a.json"], [1, 2])] :=
  collect_export_roundtrip _ _ (by decide) (by decide) (by decide) .config _ rfl

/-- C8: when a slot is present in the extracted archive and its
destination directory already exists, the destination is fully replaced by
the extracted tree, so entries of the old destination that are absent from
the archive do not survive. -/
theorem destructive_restore (ar : Tree) (d : DirSet) (sl : Slot) (old : Tree)
    (_hold : d.get sl = some old) (hpres : filesUnder sl.archiveName ar ≠ []) :
    (exportRestore ar d).get sl = some (filesUnder sl.archiveName ar) ∧
    ∀ e ∈ old, e ∉ filesUnder sl.archiveName ar →
      ∀ t, (exportRestore ar d).get sl = some t → e ∉ t := by
  have h := exportRestore_get ar d sl
  rw [if_neg hpres] at h
  refine ⟨h, ?_⟩
  intro e _ hnotin t ht he
  rw [h] at ht
  injection ht with ht
  exact hnotin (ht ▸ he)

theorem destructive_restore_witness :
    (exportRestore [(["cache", "n"], [7])]
        ⟨none, some [(["stale"], [9])], none⟩).get .cache =
      some [(["n"], [7])] ∧
    ((["stale"], [9]) : RelPath × Bytes) ∉ [((["n"] : RelPath), ([7] : Bytes))] := by
  have h := destructive_restore [(["cache", "n"], [7])]
      ⟨none, some [(["stale"], [9])], none⟩ .cache [(["stale"], [9])]
      rfl (by decide)
  exact ⟨h.1, h.2 _ (by decide) (by decide) _ h.1⟩

/-- C9: collecting while one slot's source directory is absent yields an
archive whose entries all lie under present slots, and exporting that
archive leaves the absent slot's destination exactly as it was, skipping
it with the non-fatal warning, while every present (populated) slot is
restored to its source tree. -/
theorem absent_slot_untouched (s d : DirSet) (sl : Slot)
    (habs : s.get sl = none)
    (h1 : s.config ≠ some []) (h2 : s.cache ≠ some [])
    (h3 : s.bunCache ≠ some []) :
    (∀ e ∈ collectArchive s, ∃ sl2 t rest, s.get sl2 = some t ∧
        e.1 = sl2.archiveName :: rest) ∧
    (exportRestore (collectArchive s) d).get sl = d.get sl ∧
    sl ∈ (restoreSlots (collectArchive s) (fun _ => true) slotOrder d).warnings ∧
    (∀ sl2 t, s.get sl2 = some t →
      (exportRestore (collectArchive s) d).get sl2 = some t) := by
  have hempty : filesUnder sl.archiveName (collectArchive s) = [] := by
    rw [filesUnder_collectArchive, habs]
    rfl
  refine ⟨collectArchive_mem s, ?_, (warnings_mem _ d sl).mpr hempty,
    restored_present_slots s d h1 h2 h3⟩
  rw [exportRestore_get, hempty]
  simp

theorem absent_slot_untouched_witness :
    (exportRestore
        (collectArchive ⟨some [(["a"], [1])], none, some [(["b"], [2])]⟩)
        ⟨none, some [(["old"], [5])], none⟩).get .cache =
      some [(["old"], [5])] ∧
    Slot.cache ∈ (restoreSlots
        (collectArchive ⟨some [(["a"], [1])], none, some [(["b"], [2])]⟩)
        (fun _ => true) slotOrder ⟨none, some [(["old"], [5])], none⟩).warnings := by
  have h := absent_slot_untouched ⟨some [(["a"], [1])], none, some [(["b"], [2])]⟩
      ⟨none, some [(["old"], [5])], none⟩ .cache rfl (by decide) (by decide)
      (by decide)
  exact ⟨h.2.1, h.2.2.1⟩

/-- C2: after every collect or export invocation, whichever step succeeded
or failed, the timestamp-named temporary directory the invocation created
no longer exists (the `finally` blocks at lines 151-155 and 231-235 remove
it on every exit path, and it is never created at all when the run exits
before the `try` body or inside the directory-creation call). -/
theorem cleanup_invariant :
    (∀ cfg : CollectCfg, dirExistsAfter (collectRun cfg).trace = false) ∧
    (∀ (cfg : ExportCfg) (d : DirSet),
      dirExistsAfter (exportRun cfg d).trace = false) := by
  constructor
  · intro cfg
    unfold collectRun plainZipTail
    rcases hc : (copyPhase cfg.sources cfg.copyOk slotOrder).2 with _ | sl <;>
      cases hm : cfg.mkdirOk <;> cases hp : cfg.password <;>
        cases ht : cfg.zipTool <;> cases hw : cfg.zipfileWriteOk <;>
          simp [hc, hm, hp, ht, hw, dirExistsAfter]
  · intro cfg d
    unfold exportRun restoreTail
    rcases ha : cfg.archive with _ | ar <;>
      cases hm : cfg.mkdirOk <;> cases hp : cfg.password <;>
        cases ht : cfg.unzipTool <;> cases hw : cfg.zipfileExtractOk <;>
          simp [ha, hm, hp, ht, hw, dirExistsAfter]

/-- C7: an export call whose archive path does not exist stops at once
with exit code 1, creating no temporary directory, touching no
destination, and invoking neither extraction backend. -/
theorem missing_archive_no_effects (cfg : ExportCfg) (d : DirSet)
    (h : cfg.archive = none) :
    (exportRun cfg d).outcome = .exit1 ∧ (exportRun cfg d).trace = [] ∧
    (exportRun cfg d).dests = d ∧ (exportRun cfg d).attempted = [] ∧
    (exportRun cfg d).unzipTried = false ∧
    (exportRun cfg d).zipfileTried = false := by
  simp [exportRun, h]

theorem missing_archive_no_effects_witness :
    (exportRun ⟨none, true, true, .ok, true, fun _ => true⟩
        ⟨some [(["a"], [1])], none, none⟩).outcome = .exit1 ∧
    (exportRun ⟨none, true, true, .ok, true, fun _ => true⟩
        ⟨some [(["a"], [1])], none, none⟩).dests =
      ⟨some [(["a"], [1])], none, none⟩ := by
  have h := missing_archive_no_effects ⟨none, true, true, .ok, true, fun _ => true⟩
      ⟨some [(["a"], [1])], none, none⟩ rfl
  exact ⟨h.1, h.2.2.1⟩

/-- C4: when a password is supplied and the archive exists, extraction is
attempted first with the system `unzip` subprocess (the backend the spec
designates as the strong one); the Python `zipfile` legacy path is tried
exactly when that first backend reports an extraction error
(`CalledProcessError`); and when both tiers fail the export aborts with a
fatal extraction failure, restoring nothing. -/
theorem password_extraction_fallback (cfg : ExportCfg) (d : DirSet) (ar : Tree)
    (har : cfg.archive = some ar) (hpw : cfg.password = true)
    (hmk : cfg.mkdirOk = true) :
    (exportRun cfg d).unzipTried = true ∧
    ((exportRun cfg d).zipfileTried = true ↔ cfg.unzipTool = .exitError) ∧
    (cfg.unzipTool = .exitError → cfg.zipfileExtractOk = false →
      (exportRun cfg d).outcome = .raised .extractFail ∧
      (exportRun cfg d).attempted = [] ∧ (exportRun cfg d).dests = d) := by
  cases ht : cfg.unzipTool <;> cases hz : cfg.zipfileExtractOk <;>
    simp [exportRun, restoreTail, har, hpw, hmk, ht, hz]

theorem password_extraction_fallback_witness :
    (exportRun ⟨some [(["config", "a"], [1])], true, true, .exitError, false,
        fun _ => true⟩ ⟨none, none, none⟩).unzipTried = true ∧
    (exportRun ⟨some [(["config", "a"], [1])], true, true, .exitError, false,
        fun _ => true⟩ ⟨none, none, none⟩).zipfileTried = true ∧
    (exportRun ⟨some [(["config", "a"], [1])], true, true, .exitError, false,
        fun _ => true⟩ ⟨none, none, none⟩).outcome = .raised .extractFail := by
  have h := password_extraction_fallback
      ⟨some [(["config", "a"], [1])], true, true, .exitError, false, fun _ => true⟩
      ⟨none, none, none⟩ [(["config", "a"], [1])] rfl rfl rfl
  exact ⟨h.1, h.2.1.mpr rfl, (h.2.2 rfl rfl).1⟩

/-- Helper: the slots whose restore block is entered form a sublist of the
fixed slot sequence the code walks. -/
theorem restoreSlots_attempted_sublist (ar : Tree) (ok : Slot → Bool)
    (l : List Slot) : ∀ d, (restoreSlots ar ok l d).attempted.Sublist l := by
  induction l with
  | nil =>
    intro d
    simp [restoreSlots]
  | cons sl rest ih =>
    intro d
    simp only [restoreSlots]
    split_ifs with h1 h2
    · exact (ih d).cons sl
    · exact (ih _).cons₂ sl
    · exact (List.nil_sublist rest).cons₂ sl

/-- C5 counterexample: a concrete export in which the primary-config
restore fails while the cache slot is present in the archive; the cache
slot is never attempted and its destination keeps its old contents, so a
failure in one slot does prevent attempting the next. -/
theorem restore_failure_stops_later_slots :
    (exportRun
        ⟨some [(["config", "a"], [1]), (["cache", "b"], [2])], false, true, .ok,
          true, fun sl => decide (sl ≠ .config)⟩
        ⟨none, some [(["old"], [9])], none⟩).outcome =
      .raised (.restoreFail .config) ∧
    filesUnder "cache" [(["config", "a"], [1]), (["cache", "b"], [2])] ≠ [] ∧
    (exportRun
        ⟨some [(["config", "a"], [1]), (["cache", "b"], [2])], false, true, .ok,
          true, fun sl => decide (sl ≠ .config)⟩
        ⟨none, some [(["old"], [9])], none⟩).attempted = [.config] ∧
    Slot.cache ∉ (exportRun
        ⟨some [(["config", "a"], [1]), (["cache", "b"], [2])], false, true, .ok,
          true, fun sl => decide (sl ≠ .config)⟩
        ⟨none, some [(["old"], [9])], none⟩).attempted ∧
    (exportRun
        ⟨some [(["config", "a"], [1]), (["cache", "b"], [2])], false, true, .ok,
          true, fun sl => decide (sl ≠ .config)⟩
        ⟨none, some [(["old"], [9])], none⟩).dests.cache = some [(["old"], [9])] := by
  decide

/-- C5 amended: during export the slots are processed in the fixed order
primary-config, primary-cache, secondary-cache (the attempted slots are
always an in-order sublist of that sequence), but the per-slot restores
are not independent: a failure while restoring one slot raises, so the
remaining slots are not attempted and their destinations are left
unchanged. -/
theorem restore_order_and_abort :
    (∀ (cfg : ExportCfg) (d : DirSet),
      (exportRun cfg d).attempted.Sublist slotOrder) ∧
    (∀ (cfg : ExportCfg) (d : DirSet) (ar : Tree), cfg.archive = some ar →
      cfg.mkdirOk = true → cfg.password = false → cfg.zipfileExtractOk = true →
      filesUnder "config" ar ≠ [] → cfg.restoreOk .config = false →
      (exportRun cfg d).attempted = [.config] ∧
      (exportRun cfg d).dests.cache = d.cache ∧
      (exportRun cfg d).dests.bunCache = d.bunCache ∧
      (exportRun cfg d).outcome = .raised (.restoreFail .config)) := by
  constructor
  · intro cfg d
    unfold exportRun restoreTail
    rcases ha : cfg.archive with _ | ar <;>
      cases hm : cfg.mkdirOk <;> cases hp : cfg.password <;>
        cases ht : cfg.unzipTool <;> cases hw : cfg.zipfileExtractOk <;>
          simp [ha, hm, hp, ht, hw, List.nil_sublist,
            restoreSlots_attempted_sublist]
  · intro cfg d ar har hmk hpw hz hpres hfail
    simp [exportRun, restoreTail, har, hmk, hpw, hz, slotOrder, restoreSlots,
      Slot.archiveName, hpres, hfail, DirSet.set]

theorem restore_order_and_abort_witness :
    (exportRun
        ⟨some [(["config", "a"], [1]), (["cache", "b"], [2])], false, true, .ok,
          true, fun sl => decide (sl ≠ .config)⟩
        ⟨none, some [(["old"], [9])], none⟩).attempted.Sublist slotOrder ∧
    (exportRun
        ⟨some [(["config", "a"], [1]), (["cache", "b"], [2])], false, true, .ok,
          true, fun sl => decide (sl ≠ .config)⟩
        ⟨none, some [(["old"], [9])], none⟩).dests.cache = some [(["old"], [9])] := by
  have h := restore_order_and_abort
  refine ⟨h.1 _ _, ?_⟩
  have h2 := h.2
      ⟨some [(["config", "a"], [1]), (["cache", "b"], [2])], false, true, .ok,
        true, fun sl => decide (sl ≠ .config)⟩
      ⟨none, some [(["old"], [9])], none⟩
      [(["config", "a"], [1]), (["cache", "b"], [2])] rfl rfl rfl rfl
      (by decide) (by decide)
  exact h2.2.1

/-- C3 counterexample: a collect call with a password on an environment
where the `zip` executable is absent.  The spawn raises
`FileNotFoundError`, which `except subprocess.CalledProcessError` (line
130) does not catch, so collect fails instead of falling back to an
unencrypted archive: collection can fail solely because the encryption
backend is unavailable. -/
theorem collect_fails_when_zip_absent :
    (collectRun ⟨⟨some [(["a"], [1])], none, none⟩, none, true, true,
        (fun _ => true), .notFound, true⟩).outcome = .raised .spawnNotFound ∧
    (collectRun ⟨⟨some [(["a"], [1])], none, none⟩, none, true, true,
        (fun _ => true), .notFound, true⟩).returned = none ∧
    (collectRun ⟨⟨some [(["a"], [1])], none, none⟩, none, true, true,
        (fun _ => true), .notFound, true⟩).archive = none := by
  decide

/-- C3 amended: for a collect call with a password, if the `zip`
subprocess runs but exits with an error (`CalledProcessError`), collect
falls back to an unencrypted archive, surfaces the fallback warning, and
still succeeds; but if the `zip` executable cannot be spawned at all
(`FileNotFoundError`), the exception propagates and collect fails. -/
theorem collect_password_fallback (cfg : CollectCfg)
    (hmk : cfg.mkdirOk = true)
    (hcopy : (copyPhase cfg.sources cfg.copyOk slotOrder).2 = none)
    (hpw : cfg.password = true) (hw : cfg.zipfileWriteOk = true) :
    (cfg.zipTool = .exitError →
      (collectRun cfg).outcome = .success ∧ (collectRun cfg).encrypted = false ∧
      (collectRun cfg).fallbackWarned = true ∧
      (collectRun cfg).returned = some (cfg.output.getD defaultZipName)) ∧
    (cfg.zipTool = .notFound →
      (collectRun cfg).outcome = .raised .spawnNotFound ∧
      (collectRun cfg).returned = none) := by
  constructor <;> intro ht <;>
    simp [collectRun, plainZipTail, hmk, hcopy, hpw, hw, ht]

theorem collect_password_fallback_witness :
    (collectRun ⟨⟨some [(["a"], [1])], none, none⟩, none, true, true,
        (fun _ => true), .exitError, true⟩).outcome = .success ∧
    (collectRun ⟨⟨some [(["a"], [1])], none, none⟩, none, true, true,
        (fun _ => true), .exitError, true⟩).encrypted = false ∧
    (collectRun ⟨⟨some [(["a"], [1])], none, none⟩, none, true, true,
        (fun _ => true), .exitError, true⟩).fallbackWarned = true := by
  have h := collect_password_fallback
      ⟨⟨some [(["a"], [1])], none, none⟩, none, true, true,
        (fun _ => true), .exitError, true⟩ rfl (by decide) rfl rfl
  exact ⟨(h.1 rfl).1, (h.1 rfl).2.1, (h.1 rfl).2.2.1⟩

/-- C6 counterexample: a collect call on a machine where none of the
three source directories exist.  It prints the three warnings, writes an
archive with no entries, and returns the archive name: it succeeds rather
than signalling a failure. -/
theorem collect_succeeds_without_sources :
    (collectRun ⟨⟨none, none, none⟩, none, false, true, (fun _ => true), .ok,
        true⟩).outcome = .success ∧
    (collectRun ⟨⟨none, none, none⟩, none, false, true, (fun _ => true), .ok,
        true⟩).returned = some defaultZipName ∧
    (collectRun ⟨⟨none, none, none⟩, none, false, true, (fun _ => true), .ok,
        true⟩).archive = some [] ∧
    (collectRun ⟨⟨none, none, none⟩, none, false, true, (fun _ => true), .ok,
        true⟩).missingWarnings = slotOrder := by
  decide

/-- C6 amended: when none of the three source directories exist, collect
emits a missing-source warning for each slot and still completes
successfully, returning the archive path of an archive with no entries;
no failure is signalled. -/
theorem collect_no_sources_success (cfg : CollectCfg)
    (h0 : cfg.sources = ⟨none, none, none⟩) (hmk : cfg.mkdirOk = true)
    (hpw : cfg.password = false) (hw : cfg.zipfileWriteOk = true) :
    (collectRun cfg).outcome = .success ∧
    (collectRun cfg).missingWarnings = slotOrder ∧
    (collectRun cfg).archive = some [] ∧
    (collectRun cfg).returned = some (cfg.output.getD defaultZipName) := by
  simp [collectRun, plainZipTail, h0, hmk, hpw, hw, copyPhase, slotOrder,
    DirSet.get, stagingTree, stageSlot]

theorem collect_no_sources_success_witness :
    (collectRun ⟨⟨none, none, none⟩, some "out.zip", false, true,
        (fun _ => true), .ok, true⟩).outcome = .success ∧
    (collectRun ⟨⟨none, none, none⟩, some "out.zip", false, true,
        (fun _ => true), .ok, true⟩).returned = some "out.zip" := by
  have h := collect_no_sources_success
      ⟨⟨none, none, none⟩, some "out.zip", false, true, (fun _ => true), .ok,
        true⟩ rfl rfl rfl rfl
  exact ⟨h.1, h.2.2.2⟩

/-! Lemmas about the path-resolution model. -/

theorem splitSlash_dotdot (out : List Char) :
    splitSlash ('.' :: '.' :: '/' :: out) = ['.', '.'] :: splitSlash out := rfl

theorem pathSegs_dotdot (out : List Char) :
    pathSegs ('.' :: '.' :: '/' :: out) = ['.', '.'] :: pathSegs out := by
  unfold pathSegs
  rw [splitSlash_dotdot]
  rfl

/-- The subprocess target is always relative (it starts with a dot), so it
resolves from the staging directory, whose trailing component the leading
parent-directory segment removes again. -/
theorem zipWritePath_foldl (cwd : List Seg) (st : Seg) (out : List Char) :
    zipWritePath cwd st out = (pathSegs out).foldl normStep cwd := by
  unfold zipWritePath resolvePath
  rw [pathSegs_dotdot]
  have habs : isAbsPath ('.' :: '.' :: '/' :: out) = false := rfl
  rw [habs]
  simp [normStep, List.dropLast_concat]

/-- Resolving segments that contain no parent-directory references just
appends them to the base. -/
theorem foldl_normStep_no_dots (segs : List Seg)
    (h : ∀ s ∈ segs, s ≠ ['.', '.']) :
    ∀ b, segs.foldl normStep b = b ++ segs := by
  induction segs with
  | nil => simp
  | cons s rest ih =>
    intro b
    rw [List.foldl_cons]
    rw [show normStep b s = b ++ [s] from if_neg (h s (by simp))]
    rw [ih (fun x hx => h x (by simp [hx])) (b ++ [s])]
    simp

/-- C10 counterexample: a relative output path containing a directory
separator.  The location the encrypted-archive subprocess writes to and
the location named by collect's return value coincide, because the
staging directory sits exactly one level below the working directory and
the leading parent segment of the subprocess target cancels it. -/
theorem separator_output_lands_at_returned_path :
    ('/' ∈ ['s', 'u', 'b', '/', 'f', '.', 'z', 'i', 'p']) ∧
    isAbsPath ['s', 'u', 'b', '/', 'f', '.', 'z', 'i', 'p'] = false ∧
    zipWritePath [['w']] ['t', 'm', 'p']
        ['s', 'u', 'b', '/', 'f', '.', 'z', 'i', 'p'] =
      returnedWritePath [['w']] ['s', 'u', 'b', '/', 'f', '.', 'z', 'i', 'p'] := by
  decide

/-- C10 amended: with a password and a successful `zip` subprocess, the
archive is written to `../output` resolved against the staging directory.
Because the staging directory lies one level below the working directory,
every relative output path (bare name or with separators) lands exactly at
the location collect's return value names; only an absolute output path
(without parent-directory segments, when the working directory is not the
filesystem root) lands somewhere else. -/
theorem encrypted_archive_write_location (cwd : List Seg) (st : Seg)
    (out : List Char) :
    (isAbsPath out = false →
      zipWritePath cwd st out = returnedWritePath cwd out) ∧
    (isAbsPath out = true → cwd ≠ [] →
      (∀ s ∈ pathSegs out, s ≠ ['.', '.']) →
      zipWritePath cwd st out ≠ returnedWritePath cwd out) := by
  constructor
  · intro habs
    rw [zipWritePath_foldl]
    unfold returnedWritePath resolvePath
    rw [habs]
    simp
  · intro habs hcwd hnd
    rw [zipWritePath_foldl, foldl_normStep_no_dots _ hnd cwd]
    unfold returnedWritePath resolvePath
    rw [habs]
    simp only [if_true]
    rw [foldl_normStep_no_dots _ hnd []]
    intro heq
    have h0 : cwd ++ pathSegs out = [] ++ pathSegs out := by simpa using heq
    exact hcwd (List.append_cancel_right h0)

theorem encrypted_archive_write_location_witness :
    zipWritePath [['w']] ['t', 'm', 'p'] ['f', '.', 'z', 'i', 'p'] =
      returnedWritePath [['w']] ['f', '.', 'z', 'i', 'p'] ∧
    zipWritePath [['w']] ['t', 'm', 'p'] ['/', 'f', '.', 'z', 'i', 'p'] ≠
      returnedWritePath [['w']] ['/', 'f', '.', 'z', 'i', 'p'] := by
  refine ⟨(encrypted_archive_write_location [['w']] ['t', 'm', 'p']
      ['f', '.', 'z', 'i', 'p']).1 rfl, ?_⟩
  exact (encrypted_archive_write_location [['w']] ['t', 'm', 'p']
      ['/', 'f', '.', 'z', 'i', 'p']).2 rfl (by decide) (by decide)
